import Mathlib

/-!
Verification development for the MaaSSim demand/supply synthesis module
(`MaaSSim/utils.py`).  The Python functions `networkstats`, `generate_vehicles`
and `generate_demand` are shallowly embedded as executable Lean functions.

Modelling conventions:
* Node identifiers are naturals; the skim matrix is a total function
  `skim : ℕ → ℕ → ℚ`, with `skim o d` standing for the pandas lookup
  `skim.loc[o, d]` (row `o`, column `d`), exactly the lookup used for a
  request's `dist` in `generate_demand` (line 171).  The pandas column
  extraction `skim[c]` therefore yields the values `fun n => skim n c`.
* Randomness is an explicit tape of rationals; each primitive draw consumes
  one cell and maps it into `[0,1)` by taking the fractional part.  Weighted
  sampling with replacement is inverse-CDF sampling over the cumulative
  weights, the model of `DataFrame.sample(..., weights=...)` /
  `np.random.choice(..., p=...)`; sampling without replacement removes the
  chosen element from the population.
* `math.exp` and the gaussian transform inside `np.random.normal` are
  transcendental, so they are passed as oracle parameters (`Oracles`); no
  claim depends on their values.
* Python exceptions raised by the libraries are values of `PyError`; the
  unbounded `while` loop of `generate_demand` takes a fuel argument and
  reports fuel exhaustion (i.e. non-termination of the real loop within that
  many iterations) as `PyResult.timeout`.
* Machine floats are modelled by `ℚ`; `Timedelta(x, 's').floor('s')` is
  `⌊x⌋`, Python's `int()` is truncation toward zero.
-/

namespace MaaSSim

/-- Python exceptions that the embedded code can raise.  The first three are
the exceptions the pandas/numpy/random primitives used by `utils.py` actually
raise.  `configurationError` is modelled from the spec: the spec's §7 error
taxonomy demands a dedicated, descriptive ConfigurationError; no code path in
`utils.py` constructs such an error, and the constructor exists only so that
statements can compare the actual errors against it. -/
inductive PyError where
  | valueError (msg : String)
  | typeError (msg : String)
  | indexError
  | configurationError (msg : String)
deriving DecidableEq

/-- Result of running an embedded Python computation: normal return, a raised
exception, or non-termination of the rejection loop within the given fuel. -/
inductive PyResult (α : Type) where
  | ok (a : α)
  | exn (e : PyError)
  | timeout
deriving DecidableEq

instance {ε α : Type} [DecidableEq ε] [DecidableEq α] : DecidableEq (Except ε α) := fun a b =>
  match a, b with
  | .ok x, .ok y =>
    if h : x = y then isTrue (by rw [h]) else isFalse (fun hc => by cases hc; exact h rfl)
  | .error x, .error y =>
    if h : x = y then isTrue (by rw [h]) else isFalse (fun hc => by cases hc; exact h rfl)
  | .ok _, .error _ => isFalse (fun hc => by cases hc)
  | .error _, .ok _ => isFalse (fun hc => by cases hc)

/-- The random tape: an infinite supply of rationals.  Draw `i` is turned into
a uniform value in `[0,1)` by taking the fractional part. -/
structure Tape where
  vals : ℕ → ℚ

/-- The `i`-th uniform draw in `[0,1)`. -/
def Tape.u (t : Tape) (i : ℕ) : ℚ := Int.fract (t.vals i)

/-- Oracles for the transcendental functions of the source: `expA` stands for
`math.exp` (used only to build sampling weights), `gauss` for the
uniform-to-standard-normal transform inside `np.random.normal`. -/
structure Oracles where
  expA : ℚ → ℚ
  gauss : ℚ → ℚ

/-- Python `int(x)`: truncation toward zero. -/
def pyInt (q : ℚ) : ℤ := if 0 ≤ q then ⌊q⌋ else -⌊-q⌋

/-- Inverse-CDF selection over a weight list: the first index whose cumulative
weight exceeds `u`. -/
def pickIdx : List ℚ → ℚ → ℕ
  | [], _ => 0
  | w :: ws, u => if u < w then 0 else pickIdx ws (u - w) + 1

/-- One row of the `distances` DataFrame built in `generate_demand`
(lines 146–155): a candidate node with its distance from the center column and
the two exponential sampling weights. -/
structure CandRow where
  node : ℕ
  distance : ℚ
  p_origin : ℚ
  p_destination : ℚ
deriving DecidableEq

/-- `n` weighted draws with replacement from the candidate rows, the model of
`distances.sample(n, weights=w, ...)`.  pandas first validates the weight
column: negative weights and a zero weight sum raise `ValueError` (an empty
candidate set falls into the zero-sum case). -/
def drawWeighted (cs : List CandRow) (ws : List ℚ) (t : Tape) : ℕ → ℕ → Except PyError (List ℕ)
  | 0, _ => .ok []
  | k + 1, pos =>
    match cs.get? (pickIdx ws (Tape.u t pos * ws.sum)) with
    | none => .error .indexError
    | some c =>
      match drawWeighted cs ws t k (pos + 1) with
      | .error e => .error e
      | .ok rest => .ok (c.node :: rest)

/-- `distances.sample(n, weights=w)` : validate the weights, then draw. -/
def sampleWeightedN (cs : List CandRow) (w : CandRow → ℚ) (n : ℕ) (t : Tape) (pos : ℕ) :
    Except PyError (List ℕ) :=
  if (cs.map w).any (fun x => decide (x < 0)) then
    .error (.valueError ("weight vector many not include negative values"))
  else if (cs.map w).sum = 0 then
    .error (.valueError ("Invalid weights: weights sum to zero"))
  else drawWeighted cs (cs.map w) t n pos

/-- Uniform sampling without replacement, the model of `nodes.sample(n)`
(line 143): each draw picks a uniform index into the remaining population and
removes it. -/
def sampleGo (t : Tape) : ℕ → List ℕ → ℕ → List ℕ
  | 0, _, _ => []
  | k + 1, rem, pos =>
    rem.getD ((⌊Tape.u t pos * (rem.length : ℚ)⌋).toNat) 0 ::
      sampleGo t k (rem.eraseIdx ((⌊Tape.u t pos * (rem.length : ℚ)⌋).toNat)) (pos + 1)

/-- `df.sample(n)` with `replace=False`: pandas raises when the requested
sample exceeds the population. -/
def sampleNoReplace (t : Tape) (xs : List ℕ) (n : ℕ) (pos : ℕ) : Except PyError (List ℕ) :=
  if n ≤ xs.length then .ok (sampleGo t n xs pos)
  else .error (.valueError ("Cannot take a larger sample than population when replace is False"))

/-- `rand_node(df)` : `random.choice` over the node index; raises on an empty
sequence. -/
def rand_node (nodes : List ℕ) (u : ℚ) : Except PyError ℕ :=
  match nodes.get? ((⌊u * (nodes.length : ℚ)⌋).toNat) with
  | some n => .ok n
  | none => .error .indexError

/-- Traveller lifecycle tag used at creation (from `traveller.travellerEvent`;
only `STARTS_DAY` is used by the generator). -/
inductive TravellerEvent where
  | STARTS_DAY
deriving DecidableEq

/-- Driver lifecycle tag used at creation (from `driver.driverEvent`). -/
inductive DriverEvent where
  | STARTS_DAY
deriving DecidableEq

/-- One row of the requests table while the rejection loop runs: only
`origin`, `destination`, `dist` are live at that point. -/
structure PreReq where
  origin : ℕ
  destination : ℕ
  dist : ℚ
deriving DecidableEq

/-- A finalized request row. -/
structure Request where
  origin : ℕ
  destination : ℕ
  treq : ℤ
  dist : ℚ
  ttrav : ℤ
  tarr : ℤ
  shareable : Bool
  pax_id : ℕ
deriving DecidableEq

/-- A passenger row of the output. -/
structure Passenger where
  pos : ℕ
  status : TravellerEvent
  platforms : List ℕ
deriving DecidableEq

/-- A vehicle row of the output. -/
structure Vehicle where
  pos : ℕ
  event : DriverEvent
  platform : ℕ
  shift_start : ℕ
  shift_end : ℕ
deriving DecidableEq

/-- The parts of `_inData` read by `generate_demand`: the node index, the skim
matrix and the precomputed network center (`_inData.stats['center']`). -/
structure InData where
  nodes : List ℕ
  skim : ℕ → ℕ → ℚ
  center : ℕ

/-- The configuration fields of `_params` read by the generator. -/
structure Params where
  nP : ℕ
  dist_threshold : ℚ
  origins_dispertion : ℚ
  destinations_dispertion : ℚ
  temporal_distribution : String
  temporal_dispertion : ℚ
  simTime : ℚ
  t0 : ℤ
  speeds_ride : ℚ

/-- What `generate_demand` writes into `_inData`: the passengers table (with
its final `pos`) and the requests table.  `pos0` records the initial passenger
positions drawn at line 143, before line 194 overwrites them with the request
origins; it is kept so that properties of the initial draw can be stated. -/
structure DemandOut where
  pos0 : List ℕ
  passengers : List Passenger
  requests : List Request
deriving DecidableEq

/-- Lines 146–155: extract the center column of the skim, keep the nodes with
distance strictly below the threshold, and attach the two exponential weights
`exp(dispersion * distance)`. -/
def buildCandidates (skim : ℕ → ℕ → ℚ) (nodes : List ℕ) (center : ℕ) (thr : ℚ)
    (expA : ℚ → ℚ) (ko kd : ℚ) : List CandRow :=
  (nodes.filter (fun n => decide (skim n center < thr))).map
    (fun n =>
      { node := n, distance := skim n center,
        p_origin := expA (ko * skim n center),
        p_destination := expA (kd * skim n center) })

/-- Lines 156–164: the temporal draw.  `uniform` draws `nP` values from
`[-simTime*60*60/2, simTime*60*60/2)`, `normal` draws `nP` values with mean
`simTime*60*60/2` and standard deviation `temporal_dispertion` times that;
any other name leaves `treq = None`. -/
def temporalSample (p : Params) (orc : Oracles) (t : Tape) (pos : ℕ) : Option (List ℚ) :=
  if p.temporal_distribution = "uniform" then
    some ((List.range p.nP).map (fun i =>
      -(p.simTime * 60 * 60 / 2) +
        Tape.u t (pos + i) * (p.simTime * 60 * 60 / 2 - -(p.simTime * 60 * 60 / 2))))
  else if p.temporal_distribution = "normal" then
    some ((List.range p.nP).map (fun i =>
      p.simTime * 60 * 60 / 2 +
        p.temporal_dispertion * (p.simTime * 60 * 60 / 2) * orc.gauss (Tape.u t (pos + i))))
  else none

/-- Replace a row's origin (loop body, lines 173–176). -/
def setOrigin (r : PreReq) (n : ℕ) : PreReq := { r with origin := n }

/-- Replace a row's destination (loop body, lines 177–180). -/
def setDestination (r : PreReq) (n : ℕ) : PreReq := { r with destination := n }

/-- One column update of the loop body: for each row still at
`dist >= dist_threshold` draw one candidate (`distances.sample(1, weights=w)`)
and update the row; rows below the threshold are returned unchanged and
consume no randomness. -/
def redrawPass (cs : List CandRow) (thr : ℚ) (w : CandRow → ℚ) (upd : PreReq → ℕ → PreReq)
    (t : Tape) : List PreReq → ℕ → Except PyError (List PreReq × ℕ)
  | [], pos => .ok ([], pos)
  | r :: rs, pos =>
    if thr ≤ r.dist then
      match sampleWeightedN cs w 1 t pos with
      | .error e => .error e
      | .ok nds =>
        match redrawPass cs thr w upd t rs (pos + 1) with
        | .error e => .error e
        | .ok (rs2, pos2) => .ok (upd r (nds.headD 0) :: rs2, pos2)
    else
      match redrawPass cs thr w upd t rs pos with
      | .error e => .error e
      | .ok (rs2, pos2) => .ok (r :: rs2, pos2)

/-- Line 181 (and 171): recompute `dist = skim.loc[origin, destination]` for
every row. -/
def recomputeDist (skim : ℕ → ℕ → ℚ) (rows : List PreReq) : List PreReq :=
  rows.map (fun r => { r with dist := skim r.origin r.destination })

/-- One iteration of the `while` body (lines 173–181): redraw origins of the
offending rows, then destinations of the offending rows (the condition reads
the `dist` column, which both column updates leave unchanged), then recompute
`dist` for all rows. -/
def loopIteration (cs : List CandRow) (skim : ℕ → ℕ → ℚ) (thr : ℚ) (t : Tape)
    (rows : List PreReq) (pos : ℕ) : Except PyError (List PreReq × ℕ) :=
  match redrawPass cs thr CandRow.p_origin setOrigin t rows pos with
  | .error e => .error e
  | .ok (rows1, pos1) =>
    match redrawPass cs thr CandRow.p_destination setDestination t rows1 pos1 with
    | .error e => .error e
    | .ok (rows2, pos2) => .ok (recomputeDist skim rows2, pos2)

/-- The rejection-resampling `while` loop (line 172): iterate while some row
has `dist >= dist_threshold`; `fuel` bounds the number of iterations and
running out of fuel reports the loop's potential non-termination. -/
def rejectionLoop (cs : List CandRow) (skim : ℕ → ℕ → ℚ) (thr : ℚ) (t : Tape) :
    ℕ → List PreReq → ℕ → PyResult (List PreReq × ℕ)
  | fuel, rows, pos =>
    if rows.any (fun r => decide (thr ≤ r.dist)) then
      match fuel with
      | 0 => .timeout
      | f + 1 =>
        match loopIteration cs skim thr t rows pos with
        | .error e => .exn e
        | .ok (rows2, pos2) => rejectionLoop cs skim thr t f rows2 pos2
    else .ok (rows, pos)

/-- Lines 183–186: `ttrav` is `Timedelta(dist, 's').floor('s')`, i.e. `⌊dist⌋`
seconds; when `avg_speed` is set, that already-floored value is divided by
`speeds.ride` and floored again. -/
def ttravOf (avg_speed : Bool) (ride : ℚ) (dist : ℚ) : ℤ :=
  if avg_speed then ⌊((⌊dist⌋ : ℚ)) / ride⌋ else ⌊dist⌋

/-- Assemble one finalized row from its `treq` and its post-loop
origin/destination/dist (lines 183–187, 191): `tarr = treq + ttrav`,
`shareable = False`; `pax_id` is rewritten after sorting. -/
def mkRequest (avg_speed : Bool) (ride : ℚ) (tq : ℤ) (r : PreReq) : Request :=
  { origin := r.origin, destination := r.destination, dist := r.dist,
    treq := tq, ttrav := ttravOf avg_speed ride r.dist,
    tarr := tq + ttravOf avg_speed ride r.dist, shareable := false, pax_id := 0 }

/-- The sort key of line 188. -/
def treqLE (a b : Request) : Prop := a.treq ≤ b.treq

instance : DecidableRel treqLE := fun a b => inferInstanceAs (Decidable (a.treq ≤ b.treq))

instance : IsTotal Request treqLE := ⟨fun a b => Int.le_total a.treq b.treq⟩

instance : IsTrans Request treqLE := ⟨fun _ _ _ hab hbc => le_trans hab hbc⟩

/-- Lines 189–190: after sorting, the index and `pax_id` become the positional
index `0..nP-1` again. -/
def setPaxIds (l : List Request) : List Request :=
  ((List.range l.length).zip l).map (fun q => { q.2 with pax_id := q.1 })

/-- Lines 183–191: build the rows, sort by `treq` (line 188) and reindex. -/
def finalizeRequests (avg_speed : Bool) (ride : ℚ) (treqs : List ℤ) (rows : List PreReq) :
    List Request :=
  setPaxIds (((treqs.zip rows).map (fun q => mkRequest avg_speed ride q.1 q.2)).insertionSort treqLE)

/-- `generate_demand` (lines 137–198).  Steps, in source order: sample the
initial passenger positions without replacement (line 143), build the
candidate table (146–155), draw the request times (156–165, raising the
`None`-iteration `TypeError` for an unrecognized distribution name), bulk-draw
origins and destinations with replacement (166–169), compute `dist` (171), run
the rejection loop (172–181), then finalize, sort and reindex (183–196). -/
def generate_demand (inD : InData) (p : Params) (avg_speed : Bool) (orc : Oracles)
    (t : Tape) (fuel : ℕ) : PyResult DemandOut :=
  match sampleNoReplace t inD.nodes p.nP 0 with
  | .error e => .exn e
  | .ok pos0 =>
    match temporalSample p orc t p.nP with
    | none => .exn (.typeError ("NoneType object is not iterable"))
    | some qs =>
      match
        sampleWeightedN
          (buildCandidates inD.skim inD.nodes inD.center p.dist_threshold orc.expA
            p.origins_dispertion p.destinations_dispertion)
          CandRow.p_origin p.nP t (2 * p.nP) with
      | .error e => .exn e
      | .ok origins =>
        match
          sampleWeightedN
            (buildCandidates inD.skim inD.nodes inD.center p.dist_threshold orc.expA
              p.origins_dispertion p.destinations_dispertion)
            CandRow.p_destination p.nP t (3 * p.nP) with
        | .error e => .exn e
        | .ok dests =>
          match
            rejectionLoop
              (buildCandidates inD.skim inD.nodes inD.center p.dist_threshold orc.expA
                p.origins_dispertion p.destinations_dispertion)
              inD.skim p.dist_threshold t fuel
              (List.zipWith (fun o d => PreReq.mk o d (inD.skim o d)) origins dests)
              (4 * p.nP) with
          | .timeout => .timeout
          | .exn e => .exn e
          | .ok (rowsF, _) =>
            .ok
              { pos0 := pos0,
                passengers :=
                  (finalizeRequests avg_speed p.speeds_ride (qs.map (fun q => p.t0 + pyInt q))
                      rowsF).map
                    (fun r => { pos := r.origin, status := .STARTS_DAY, platforms := [0] }),
                requests :=
                  finalizeRequests avg_speed p.speeds_ride (qs.map (fun q => p.t0 + pyInt q))
                    rowsF }

/-- Fill the vehicle rows (lines 128–132): lifecycle tag `STARTS_DAY`,
platform `0`, shift `[0, 86400)`, and a `rand_node` position per row. -/
def fillVehicles (nodes : List ℕ) (t : Tape) : ℕ → ℕ → Except PyError (List Vehicle)
  | 0, _ => .ok []
  | k + 1, pos =>
    match rand_node nodes (Tape.u t pos) with
    | .error e => .error e
    | .ok nd =>
      match fillVehicles nodes t k (pos + 1) with
      | .error e => .error e
      | .ok rest =>
        .ok ({ pos := nd, event := .STARTS_DAY, platform := 0, shift_start := 0,
               shift_end := 86400 } :: rest)

/-- `generate_vehicles` (lines 116–134).  The loop builds `nV + 1` empty rows
(`range(nV + 1)`), but `pd.concat(vehs, keys=range(1, nV + 1))` pairs objects
with keys by `zip`, so the concatenation keeps `min nV (nV + 1) = nV` rows;
when that leaves no rows (`nV = 0`) pandas raises. -/
def generate_vehicles (nodes : List ℕ) (nV : ℕ) (t : Tape) (pos : ℕ) :
    Except PyError (List Vehicle) :=
  if ((List.range' 1 nV).zip (List.range (nV + 1))).length = 0 then
    .error (.valueError ("All objects passed were None"))
  else fillVehicles nodes t ((List.range' 1 nV).zip (List.range (nV + 1))).length pos

/-- A node row of `_inData.nodes`: identifier and planar coordinates. -/
structure NodeRec where
  id : ℕ
  x : ℚ
  y : ℚ

/-- The output of `networkstats`. -/
structure NetStats where
  center : ℕ
  radius : ℚ
deriving DecidableEq

/-- `Series.quantile(q)` with the default linear interpolation: with the
values sorted ascending, position `h = q * (n - 1)`, the result interpolates
between the neighbouring order statistics. -/
def pandasQuantile (q : ℚ) (xs : List ℚ) : ℚ :=
  (((xs.insertionSort (fun a b => a ≤ b)).getD ((⌊q * ((xs.length : ℚ) - 1)⌋).toNat) 0) +
    (q * ((xs.length : ℚ) - 1) - ((((⌊q * ((xs.length : ℚ) - 1)⌋).toNat) : ℚ))) *
      (((xs.insertionSort (fun a b => a ≤ b)).getD ((⌊q * ((xs.length : ℚ) - 1)⌋).toNat + 1)
          ((xs.insertionSort (fun a b => a ≤ b)).getD ((⌊q * ((xs.length : ℚ) - 1)⌋).toNat) 0)) -
        ((xs.insertionSort (fun a b => a ≤ b)).getD ((⌊q * ((xs.length : ℚ) - 1)⌋).toNat) 0)))

/-- `networkstats` (lines 88–99): the centroid of the node coordinates, the
nearest graph node to it (`get_nearest_node` is an external osmnx collaborator,
passed as an oracle taking `(center_y, center_x)`), and the radius
`skim[nearest].quantile(0.75)` — the 75th percentile of the pandas column of
the skim at the center, whose entries are `skim.loc[n, center] = skim n center`. -/
def networkstats (nodes : List NodeRec) (skim : ℕ → ℕ → ℚ) (nearest : ℚ → ℚ → ℕ) : NetStats :=
  { center := nearest ((nodes.map NodeRec.y).sum / (nodes.length : ℚ))
      ((nodes.map NodeRec.x).sum / (nodes.length : ℚ)),
    radius :=
      pandasQuantile (3 / 4)
        (nodes.map (fun nd =>
          skim nd.id
            (nearest ((nodes.map NodeRec.y).sum / (nodes.length : ℚ))
              ((nodes.map NodeRec.x).sum / (nodes.length : ℚ))))) }

/-- Modelled from the spec (claim C5's words), for comparison with
`networkstats`: the 75th percentile of lookups `skim[origin][destination]`
with `origin = center`, i.e. of `skim center n` over all nodes `n`. -/
def radiusClaimed (nodes : List NodeRec) (skim : ℕ → ℕ → ℚ) (c : ℕ) : ℚ :=
  pandasQuantile (3 / 4) (nodes.map (fun nd => skim c nd.id))

/-- Modelled from the spec (claim C4's words), for comparison: `ttrav` as
"`dist` (seconds) divided by the average-speed factor and then floored". -/
def ttravClaimed (ride : ℚ) (dist : ℚ) : ℤ := ⌊dist / ride⌋

/-- A default row, used only as the `getD` fallback in statements. -/
def dfltPre : PreReq := { origin := 0, destination := 0, dist := 0 }

/-- A default request, used only as the `getD` fallback in statements. -/
def dfltReq : Request :=
  { origin := 0, destination := 0, treq := 0, dist := 0, ttrav := 0, tarr := 0,
    shareable := false, pax_id := 0 }

/-- Classifier for the spec's ConfigurationError class over the errors the
code can raise. -/
def PyError.isConfigELike : PyError → Bool
  | .configurationError _ => true
  | _ => false

/-- A constant random tape (every uniform draw is `0`). -/
def demoTape : Tape := ⟨fun _ => 0⟩

/-- A symmetric two-node skim with off-diagonal distance `2`. -/
def demoSkim : ℕ → ℕ → ℚ := fun a b => if a = b then 0 else 2

/-- A two-node network with center `0`. -/
def demoInD : InData := { nodes := [0, 1], skim := demoSkim, center := 0 }

/-- A one-passenger configuration on the demo network. -/
def demoParams : Params :=
  { nP := 1, dist_threshold := 3, origins_dispertion := 0, destinations_dispertion := 0,
    temporal_distribution := "uniform", temporal_dispertion := 0, simTime := 1, t0 := 10000,
    speeds_ride := 1 }

/-- Oracles for the witnesses: with both dispersions `0` the real weights are
`exp 0 = 1`, which the constant-one oracle reproduces exactly. -/
def demoOrc : Oracles := { expA := fun _ => 1, gauss := fun _ => 0 }

/-- The request row produced by the one-passenger demo run. -/
def demoReq : Request :=
  { origin := 0, destination := 0, treq := 8200, dist := 0, ttrav := 0, tarr := 8200,
    shareable := false, pax_id := 0 }

/-- The output of the one-passenger demo run. -/
def demoOut : DemandOut :=
  { pos0 := [0],
    passengers := [{ pos := 0, status := .STARTS_DAY, platforms := [0] }],
    requests := [demoReq] }

/-- The vehicle rows produced by `generate_vehicles` on the demo network with
`nV = 2` and the constant tape. -/
def demoVehs : List Vehicle :=
  [{ pos := 0, event := .STARTS_DAY, platform := 0, shift_start := 0, shift_end := 86400 },
   { pos := 0, event := .STARTS_DAY, platform := 0, shift_start := 0, shift_end := 86400 }]

/-- Two-passenger variant of the demo configuration. -/
def demo2Params : Params :=
  { nP := 2, dist_threshold := 3, origins_dispertion := 0, destinations_dispertion := 0,
    temporal_distribution := "uniform", temporal_dispertion := 0, simTime := 1, t0 := 10000,
    speeds_ride := 1 }

/-- The output of the two-passenger demo run. -/
def demo2Out : DemandOut :=
  { pos0 := [0, 1],
    passengers := [{ pos := 0, status := .STARTS_DAY, platforms := [0] },
                   { pos := 0, status := .STARTS_DAY, platforms := [0] }],
    requests := [{ origin := 0, destination := 0, treq := 8200, dist := 0, ttrav := 0,
                   tarr := 8200, shareable := false, pax_id := 0 },
                 { origin := 0, destination := 0, treq := 8200, dist := 0, ttrav := 0,
                   tarr := 8200, shareable := false, pax_id := 1 }] }

/-- Tape for the C4 counterexample: the destination draw picks the second
candidate. -/
def c4Tape : Tape := ⟨fun i => if i = 3 then 1 / 2 else 0⟩

/-- Skim with the fractional off-diagonal distance `7/2`. -/
def c4Skim : ℕ → ℕ → ℚ := fun a b => if a = b then 0 else 7 / 2

/-- Network for the C4 counterexample. -/
def c4InD : InData := { nodes := [0, 1], skim := c4Skim, center := 0 }

/-- Configuration for the C4 counterexample: `speeds.ride = 1/2`. -/
def c4Params : Params :=
  { nP := 1, dist_threshold := 4, origins_dispertion := 0, destinations_dispertion := 0,
    temporal_distribution := "uniform", temporal_dispertion := 0, simTime := 1, t0 := 0,
    speeds_ride := 1 / 2 }

/-- The request row produced by the C4 counterexample run:
`dist = 7/2`, `ttrav = ⌊⌊7/2⌋ / (1/2)⌋ = 6`. -/
def c4Req : Request :=
  { origin := 0, destination := 1, treq := -1800, dist := 7 / 2, ttrav := 6, tarr := -1794,
    shareable := false, pax_id := 0 }

/-- The output of the C4 counterexample run. -/
def c4Out : DemandOut :=
  { pos0 := [0],
    passengers := [{ pos := 0, status := .STARTS_DAY, platforms := [0] }],
    requests := [c4Req] }

/-- Degenerate threshold configuration: `dist_threshold = 0` empties the
candidate set of the demo network. -/
def c9Params : Params :=
  { nP := 1, dist_threshold := 0, origins_dispertion := 0, destinations_dispertion := 0,
    temporal_distribution := "uniform", temporal_dispertion := 0, simTime := 1, t0 := 0,
    speeds_ride := 1 }

/-- Configuration with an unrecognized temporal distribution name. -/
def c8Params : Params :=
  { nP := 1, dist_threshold := 3, origins_dispertion := 0, destinations_dispertion := 0,
    temporal_distribution := "poisson", temporal_dispertion := 0, simTime := 1, t0 := 0,
    speeds_ride := 1 }

/-- Demand for more passengers than the demo network has nodes. -/
def c10Params : Params :=
  { nP := 3, dist_threshold := 3, origins_dispertion := 0, destinations_dispertion := 0,
    temporal_distribution := "uniform", temporal_dispertion := 0, simTime := 1, t0 := 0,
    speeds_ride := 1 }

/-- Candidate table for the C3 witness (both weights `1`). -/
def c3Cands : List CandRow := [⟨0, 0, 1, 1⟩, ⟨1, 2, 1, 1⟩]

/-- Input rows for the C3 witness: row 0 satisfies the constraint, row 1
violates it. -/
def c3Rows : List PreReq := [⟨0, 0, 0⟩, ⟨0, 1, 5⟩]

/-- Rows after one loop iteration on `c3Rows`. -/
def c3Rows2 : List PreReq := [⟨0, 0, 0⟩, ⟨0, 0, 0⟩]

/-- Two nodes for the networkstats statements. -/
def nsNodes : List NodeRec := [⟨0, 0, 0⟩, ⟨1, 1, 0⟩]

/-- An asymmetric skim: `0 → 1` costs `10` but `1 → 0` costs `20`. -/
def nsSkim : ℕ → ℕ → ℚ :=
  fun a b => if a = 0 ∧ b = 1 then 10 else if a = 1 ∧ b = 0 then 20 else 0

/-- A symmetric skim for the C5 witness. -/
def nsSymSkim : ℕ → ℕ → ℚ := fun a b => if a = b then 0 else 12

/-- Nearest-node oracle pinning the center to node `0`. -/
def nsNearest : ℚ → ℚ → ℕ := fun _ _ => 0

theorem Tape.u_nonneg (t : Tape) (i : ℕ) : 0 ≤ t.u i := Int.fract_nonneg _

theorem Tape.u_lt_one (t : Tape) (i : ℕ) : t.u i < 1 := Int.fract_lt_one _

theorem uIdx_lt {u : ℚ} (h0 : 0 ≤ u) (h1 : u < 1) {n : ℕ} (hn : 0 < n) :
    (⌊u * (n : ℚ)⌋).toNat < n := by
  have hmul : u * (n : ℚ) < (n : ℚ) := by
    have hn' : (0 : ℚ) < (n : ℚ) := by exact_mod_cast hn
    nlinarith
  have hf : ⌊u * (n : ℚ)⌋ < (n : ℤ) := Int.floor_lt.mpr (by exact_mod_cast hmul)
  have hf0 : 0 ≤ ⌊u * (n : ℚ)⌋ := Int.floor_nonneg.mpr (by positivity)
  omega

theorem sampleGo_length (t : Tape) : ∀ (k : ℕ) (rem : List ℕ) (pos : ℕ),
    (sampleGo t k rem pos).length = k := by
  intro k
  induction k with
  | zero => intro rem pos; simp [sampleGo]
  | succ k ih => intro rem pos; simp [sampleGo, ih]

theorem getElem_not_mem_eraseIdx (l : List ℕ) (i : ℕ) (hi : i < l.length) (hnd : l.Nodup) :
    l[i] ∉ l.eraseIdx i := by
  have h2 : l = l.take i ++ l[i] :: l.drop (i + 1) := by
    conv_lhs => rw [← List.take_append_drop i l]
    rw [List.drop_eq_getElem_cons hi]
  have hnd' := hnd
  rw [h2, List.nodup_middle, List.nodup_cons] at hnd'
  rw [List.eraseIdx_eq_take_drop_succ]
  exact hnd'.1

theorem sampleGo_subset (t : Tape) : ∀ (k : ℕ) (rem : List ℕ) (pos : ℕ), k ≤ rem.length →
    ∀ y ∈ sampleGo t k rem pos, y ∈ rem := by
  intro k
  induction k with
  | zero => intro rem pos _ y hy; simp [sampleGo] at hy
  | succ k ih =>
    intro rem pos hk y hy
    have hlen : 0 < rem.length := lt_of_lt_of_le (Nat.succ_pos k) hk
    have hi : (⌊Tape.u t pos * (rem.length : ℚ)⌋).toNat < rem.length :=
      uIdx_lt (Tape.u_nonneg t pos) (Tape.u_lt_one t pos) hlen
    simp only [sampleGo, List.mem_cons] at hy
    rcases hy with hy | hy
    · rw [hy, List.getD_eq_getElem _ _ hi]; exact List.getElem_mem hi
    · have hk2 : k ≤ (rem.eraseIdx ((⌊Tape.u t pos * (rem.length : ℚ)⌋).toNat)).length := by
        rw [List.length_eraseIdx, if_pos hi]; omega
      exact (List.eraseIdx_sublist rem _).mem (ih _ _ hk2 y hy)

theorem sampleGo_nodup (t : Tape) : ∀ (k : ℕ) (rem : List ℕ) (pos : ℕ), k ≤ rem.length →
    rem.Nodup → (sampleGo t k rem pos).Nodup := by
  intro k
  induction k with
  | zero => intro rem pos _ _; simp [sampleGo]
  | succ k ih =>
    intro rem pos hk hnd
    have hlen : 0 < rem.length := lt_of_lt_of_le (Nat.succ_pos k) hk
    have hi : (⌊Tape.u t pos * (rem.length : ℚ)⌋).toNat < rem.length :=
      uIdx_lt (Tape.u_nonneg t pos) (Tape.u_lt_one t pos) hlen
    have hk2 : k ≤ (rem.eraseIdx ((⌊Tape.u t pos * (rem.length : ℚ)⌋).toNat)).length := by
      rw [List.length_eraseIdx, if_pos hi]; omega
    have hnd2 : (rem.eraseIdx ((⌊Tape.u t pos * (rem.length : ℚ)⌋).toNat)).Nodup :=
      (List.eraseIdx_sublist rem _).nodup hnd
    simp only [sampleGo, List.nodup_cons]
    refine ⟨fun hmem => ?_, ih _ _ hk2 hnd2⟩
    have := sampleGo_subset t k _ (pos + 1) hk2 _ hmem
    rw [List.getD_eq_getElem _ _ hi] at this
    exact getElem_not_mem_eraseIdx rem _ hi hnd this

theorem drawWeighted_length (cs : List CandRow) (ws : List ℚ) (t : Tape) :
    ∀ (n : ℕ) (pos : ℕ) (l : List ℕ), drawWeighted cs ws t n pos = .ok l → l.length = n := by
  intro n
  induction n with
  | zero => intro pos l h; simp [drawWeighted] at h; simp [← h]
  | succ n ih =>
    intro pos l h
    simp only [drawWeighted] at h
    split at h
    · exact absurd h (by simp)
    · split at h
      · exact absurd h (by simp)
      · next rest hrest =>
        simp only [Except.ok.injEq] at h
        subst h
        simp [ih _ _ hrest]

theorem sampleWeightedN_length (cs : List CandRow) (w : CandRow → ℚ) (n : ℕ) (t : Tape)
    (pos : ℕ) (l : List ℕ) (h : sampleWeightedN cs w n t pos = .ok l) : l.length = n := by
  simp only [sampleWeightedN] at h
  split at h
  · exact absurd h (by simp)
  · split at h
    · exact absurd h (by simp)
    · exact drawWeighted_length cs _ t n pos l h

theorem temporalSample_length (p : Params) (orc : Oracles) (t : Tape) (pos : ℕ) (qs : List ℚ)
    (h : temporalSample p orc t pos = some qs) : qs.length = p.nP := by
  simp only [temporalSample] at h
  split at h
  · simp only [Option.some.injEq] at h; simp [← h]
  · split at h
    · simp only [Option.some.injEq] at h; simp [← h]
    · exact absurd h (by simp)

@[simp] theorem setOrigin_dist (r : PreReq) (n : ℕ) : (setOrigin r n).dist = r.dist := rfl

@[simp] theorem setOrigin_destination (r : PreReq) (n : ℕ) :
    (setOrigin r n).destination = r.destination := rfl

@[simp] theorem setOrigin_origin (r : PreReq) (n : ℕ) : (setOrigin r n).origin = n := rfl

@[simp] theorem setDestination_dist (r : PreReq) (n : ℕ) : (setDestination r n).dist = r.dist := rfl

@[simp] theorem setDestination_origin (r : PreReq) (n : ℕ) :
    (setDestination r n).origin = r.origin := rfl

@[simp] theorem setDestination_destination (r : PreReq) (n : ℕ) :
    (setDestination r n).destination = n := rfl

theorem redrawPass_spec (cs : List CandRow) (thr : ℚ) (w : CandRow → ℚ)
    (upd : PreReq → ℕ → PreReq) (t : Tape) :
    ∀ (rows : List PreReq) (pos : ℕ) (rows2 : List PreReq) (pos2 : ℕ),
      redrawPass cs thr w upd t rows pos = .ok (rows2, pos2) →
      rows2.length = rows.length ∧
      ∀ i, i < rows.length →
        (¬ thr ≤ (rows.getD i dfltPre).dist → rows2.getD i dfltPre = rows.getD i dfltPre) ∧
        (thr ≤ (rows.getD i dfltPre).dist →
          ∃ j nds, sampleWeightedN cs w 1 t j = .ok nds ∧
            rows2.getD i dfltPre = upd (rows.getD i dfltPre) (nds.headD 0)) := by
  intro rows
  induction rows with
  | nil =>
    intro pos rows2 pos2 h
    simp only [redrawPass, Except.ok.injEq, Prod.mk.injEq] at h
    refine ⟨by simp [← h.1], fun i hi => absurd hi (by simp)⟩
  | cons r rs ih =>
    intro pos rows2 pos2 h
    simp only [redrawPass] at h
    split at h
    · next hc =>
      split at h
      · exact absurd h (by simp)
      · next nds hnds =>
        split at h
        · exact absurd h (by simp)
        · next rs2 pos3 hrec =>
          simp only [Except.ok.injEq, Prod.mk.injEq] at h
          obtain ⟨hrows2, _⟩ := h
          obtain ⟨hlen, hspec⟩ := ih (pos + 1) rs2 pos3 hrec
          subst hrows2
          refine ⟨by simp [hlen], fun i hi => ?_⟩
          match i with
          | 0 =>
            simp only [List.getD_cons_zero]
            exact ⟨fun hni => absurd hc hni, fun _ => ⟨pos, nds, hnds, rfl⟩⟩
          | i + 1 =>
            simp only [List.getD_cons_succ]
            exact hspec i (by simpa using hi)
    · next hc =>
      split at h
      · exact absurd h (by simp)
      · next rs2 pos3 hrec =>
        simp only [Except.ok.injEq, Prod.mk.injEq] at h
        obtain ⟨hrows2, _⟩ := h
        obtain ⟨hlen, hspec⟩ := ih pos rs2 pos3 hrec
        subst hrows2
        refine ⟨by simp [hlen], fun i hi => ?_⟩
        match i with
        | 0 =>
          simp only [List.getD_cons_zero]
          exact ⟨fun _ => trivial, fun hyes => absurd hyes hc⟩
        | i + 1 =>
          simp only [List.getD_cons_succ]
          exact hspec i (by simpa using hi)

theorem recomputeDist_length (skim : ℕ → ℕ → ℚ) (rows : List PreReq) :
    (recomputeDist skim rows).length = rows.length := by
  simp [recomputeDist]

theorem recomputeDist_getD (skim : ℕ → ℕ → ℚ) (rows : List PreReq) (i : ℕ)
    (hi : i < rows.length) :
    (recomputeDist skim rows).getD i dfltPre =
      { rows.getD i dfltPre with
        dist := skim (rows.getD i dfltPre).origin (rows.getD i dfltPre).destination } := by
  have hi2 : i < (recomputeDist skim rows).length := by rwa [recomputeDist_length]
  rw [List.getD_eq_getElem _ _ hi2, List.getD_eq_getElem _ _ hi]
  simp [recomputeDist]

theorem recomputeDist_coherent (skim : ℕ → ℕ → ℚ) (rows : List PreReq) :
    ∀ r ∈ recomputeDist skim rows, r.dist = skim r.origin r.destination := by
  intro r hr
  simp only [recomputeDist, List.mem_map] at hr
  obtain ⟨x, _, hx⟩ := hr
  simp [← hx]

theorem loopIteration_parts (cs : List CandRow) (skim : ℕ → ℕ → ℚ) (thr : ℚ) (t : Tape)
    (rows : List PreReq) (pos : ℕ) (rows2 : List PreReq) (pos2 : ℕ)
    (h : loopIteration cs skim thr t rows pos = .ok (rows2, pos2)) :
    ∃ rowsA posA rowsB posB,
      redrawPass cs thr CandRow.p_origin setOrigin t rows pos = .ok (rowsA, posA) ∧
      redrawPass cs thr CandRow.p_destination setDestination t rowsA posA = .ok (rowsB, posB) ∧
      rows2 = recomputeDist skim rowsB ∧ pos2 = posB := by
  simp only [loopIteration] at h
  split at h
  · exact absurd h (by simp)
  · next rowsA posA hA =>
    split at h
    · exact absurd h (by simp)
    · next rowsB posB hB =>
      simp only [Except.ok.injEq, Prod.mk.injEq] at h
      exact ⟨rowsA, posA, rowsB, posB, hA, hB, h.1.symm, h.2.symm⟩

theorem loopIteration_length (cs : List CandRow) (skim : ℕ → ℕ → ℚ) (thr : ℚ) (t : Tape)
    (rows : List PreReq) (pos : ℕ) (rows2 : List PreReq) (pos2 : ℕ)
    (h : loopIteration cs skim thr t rows pos = .ok (rows2, pos2)) :
    rows2.length = rows.length := by
  obtain ⟨rowsA, posA, rowsB, posB, hA, hB, hrec, _⟩ := loopIteration_parts _ _ _ _ _ _ _ _ h
  have h1 := (redrawPass_spec _ _ _ _ _ _ _ _ _ hA).1
  have h2 := (redrawPass_spec _ _ _ _ _ _ _ _ _ hB).1
  rw [hrec, recomputeDist_length, h2, h1]

theorem loopIteration_coherent (cs : List CandRow) (skim : ℕ → ℕ → ℚ) (thr : ℚ) (t : Tape)
    (rows : List PreReq) (pos : ℕ) (rows2 : List PreReq) (pos2 : ℕ)
    (h : loopIteration cs skim thr t rows pos = .ok (rows2, pos2)) :
    ∀ r ∈ rows2, r.dist = skim r.origin r.destination := by
  obtain ⟨_, _, _, _, _, _, hrec, _⟩ := loopIteration_parts _ _ _ _ _ _ _ _ h
  rw [hrec]
  exact recomputeDist_coherent skim _

theorem rejectionLoop_ok (cs : List CandRow) (skim : ℕ → ℕ → ℚ) (thr : ℚ) (t : Tape) :
    ∀ (fuel : ℕ) (rows : List PreReq) (pos : ℕ) (rows2 : List PreReq) (pos2 : ℕ),
      rejectionLoop cs skim thr t fuel rows pos = .ok (rows2, pos2) →
      (∀ r ∈ rows, r.dist = skim r.origin r.destination) →
      (∀ r ∈ rows2, r.dist < thr ∧ r.dist = skim r.origin r.destination) ∧
      rows2.length = rows.length := by
  intro fuel
  induction fuel with
  | zero =>
    intro rows pos rows2 pos2 h hcoh
    simp only [rejectionLoop] at h
    split at h
    · exact absurd h (by simp)
    · next hguard =>
      simp only [PyResult.ok.injEq, Prod.mk.injEq] at h
      obtain ⟨hrows, _⟩ := h
      subst hrows
      refine ⟨fun r hr => ⟨?_, hcoh r hr⟩, rfl⟩
      by_contra hge
      exact hguard (List.any_eq_true.mpr ⟨r, hr, by simpa using not_lt.mp hge⟩)
  | succ f ih =>
    intro rows pos rows2 pos2 h hcoh
    simp only [rejectionLoop] at h
    split at h
    · split at h
      · exact absurd h (by simp)
      · next rowsm posm hiter =>
        obtain ⟨hinv, hlen⟩ :=
          ih rowsm posm rows2 pos2 h (loopIteration_coherent _ _ _ _ _ _ _ _ hiter)
        exact ⟨hinv, hlen.trans (loopIteration_length _ _ _ _ _ _ _ _ hiter)⟩
    · next hguard =>
      simp only [PyResult.ok.injEq, Prod.mk.injEq] at h
      obtain ⟨hrows, _⟩ := h
      subst hrows
      refine ⟨fun r hr => ⟨?_, hcoh r hr⟩, rfl⟩
      by_contra hge
      exact hguard (List.any_eq_true.mpr ⟨r, hr, by simpa using not_lt.mp hge⟩)

theorem zipWith_coherent (skim : ℕ → ℕ → ℚ) (origins dests : List ℕ) :
    ∀ r ∈ List.zipWith (fun o d => PreReq.mk o d (skim o d)) origins dests,
      r.dist = skim r.origin r.destination := by
  intro r hr
  obtain ⟨i, hi, hr⟩ := List.mem_iff_getElem.mp hr
  rw [List.getElem_zipWith] at hr
  simp [← hr]

theorem mem_setPaxIds (l : List Request) (r : Request) (h : r ∈ setPaxIds l) :
    ∃ j s, s ∈ l ∧ r = { s with pax_id := j } := by
  simp only [setPaxIds, List.mem_map] at h
  obtain ⟨⟨j, s⟩, hq, hr⟩ := h
  exact ⟨j, s, (List.of_mem_zip hq).2, hr.symm⟩

theorem setPaxIds_length (l : List Request) : (setPaxIds l).length = l.length := by
  simp [setPaxIds]

theorem setPaxIds_getD_treq (l : List Request) (i : ℕ) (hi : i < l.length) :
    ((setPaxIds l).getD i dfltReq).treq = (l.getD i dfltReq).treq := by
  have hi2 : i < (setPaxIds l).length := by rwa [setPaxIds_length]
  rw [List.getD_eq_getElem _ _ hi2, List.getD_eq_getElem _ _ hi]
  simp [setPaxIds]

theorem mem_finalize (avg : Bool) (ride : ℚ) (treqs : List ℤ) (rows : List PreReq) (r : Request)
    (h : r ∈ finalizeRequests avg ride treqs rows) :
    ∃ pre ∈ rows, r.origin = pre.origin ∧ r.destination = pre.destination ∧
      r.dist = pre.dist ∧ r.ttrav = ttravOf avg ride r.dist ∧ r.tarr = r.treq + r.ttrav := by
  obtain ⟨j, s, hs, hr⟩ := mem_setPaxIds _ _ h
  have hs2 : s ∈ (treqs.zip rows).map (fun q => mkRequest avg ride q.1 q.2) :=
    (List.perm_insertionSort treqLE _).mem_iff.mp hs
  simp only [List.mem_map] at hs2
  obtain ⟨⟨tq, pre⟩, hq, hmk⟩ := hs2
  subst hr
  subst hmk
  exact ⟨pre, (List.of_mem_zip hq).2, rfl, rfl, rfl, rfl, rfl⟩

theorem finalizeRequests_length (avg : Bool) (ride : ℚ) (treqs : List ℤ) (rows : List PreReq) :
    (finalizeRequests avg ride treqs rows).length = min treqs.length rows.length := by
  simp [finalizeRequests, setPaxIds_length, List.length_insertionSort]

theorem finalizeRequests_sorted (avg : Bool) (ride : ℚ) (treqs : List ℤ) (rows : List PreReq) :
    ∀ i, i + 1 < (finalizeRequests avg ride treqs rows).length →
      ((finalizeRequests avg ride treqs rows).getD i dfltReq).treq ≤
        ((finalizeRequests avg ride treqs rows).getD (i + 1) dfltReq).treq := by
  intro i hi
  have hlen : (finalizeRequests avg ride treqs rows).length =
      (((treqs.zip rows).map (fun q => mkRequest avg ride q.1 q.2)).insertionSort treqLE).length :=
    setPaxIds_length _
  have hi2 : i + 1 <
      (((treqs.zip rows).map (fun q => mkRequest avg ride q.1 q.2)).insertionSort treqLE).length := by
    rw [← hlen]; exact hi
  have hi1 : i <
      (((treqs.zip rows).map (fun q => mkRequest avg ride q.1 q.2)).insertionSort treqLE).length :=
    Nat.lt_of_succ_lt hi2
  have hsorted : List.Sorted treqLE
      (((treqs.zip rows).map (fun q => mkRequest avg ride q.1 q.2)).insertionSort treqLE) :=
    List.sorted_insertionSort treqLE _
  have hrel := List.pairwise_iff_getElem.mp hsorted i (i + 1) hi1 hi2 (Nat.lt_succ_self i)
  show ((setPaxIds _).getD i dfltReq).treq ≤ ((setPaxIds _).getD (i + 1) dfltReq).treq
  rw [setPaxIds_getD_treq _ _ hi1, setPaxIds_getD_treq _ _ hi2,
    List.getD_eq_getElem _ _ hi1, List.getD_eq_getElem _ _ hi2]
  exact hrel

theorem generate_demand_parts (inD : InData) (p : Params) (avg : Bool) (orc : Oracles)
    (t : Tape) (fuel : ℕ) (out : DemandOut)
    (h : generate_demand inD p avg orc t fuel = .ok out) :
    ∃ pos0 qs origins dests rowsF posF,
      sampleNoReplace t inD.nodes p.nP 0 = .ok pos0 ∧
      temporalSample p orc t p.nP = some qs ∧
      sampleWeightedN
          (buildCandidates inD.skim inD.nodes inD.center p.dist_threshold orc.expA
            p.origins_dispertion p.destinations_dispertion)
          CandRow.p_origin p.nP t (2 * p.nP) = .ok origins ∧
      sampleWeightedN
          (buildCandidates inD.skim inD.nodes inD.center p.dist_threshold orc.expA
            p.origins_dispertion p.destinations_dispertion)
          CandRow.p_destination p.nP t (3 * p.nP) = .ok dests ∧
      rejectionLoop
          (buildCandidates inD.skim inD.nodes inD.center p.dist_threshold orc.expA
            p.origins_dispertion p.destinations_dispertion)
          inD.skim p.dist_threshold t fuel
          (List.zipWith (fun o d => PreReq.mk o d (inD.skim o d)) origins dests)
          (4 * p.nP) = .ok (rowsF, posF) ∧
      out = { pos0 := pos0,
              passengers :=
                (finalizeRequests avg p.speeds_ride (qs.map (fun q => p.t0 + pyInt q)) rowsF).map
                  (fun r => { pos := r.origin, status := .STARTS_DAY, platforms := [0] }),
              requests :=
                finalizeRequests avg p.speeds_ride (qs.map (fun q => p.t0 + pyInt q)) rowsF } := by
  simp only [generate_demand] at h
  split at h
  · exact absurd h (by simp)
  · next pos0 hpos0 =>
    split at h
    · exact absurd h (by simp)
    · next qs hqs =>
      split at h
      · exact absurd h (by simp)
      · next origins horig =>
        split at h
        · exact absurd h (by simp)
        · next dests hdest =>
          split at h
          · exact absurd h (by simp)
          · exact absurd h (by simp)
          · next rowsF posF hloop =>
            simp only [PyResult.ok.injEq] at h
            exact ⟨pos0, qs, origins, dests, rowsF, posF, hpos0, hqs, horig, hdest, hloop, h.symm⟩

theorem fillVehicles_length (nodes : List ℕ) (t : Tape) :
    ∀ (k : ℕ) (pos : ℕ) (vs : List Vehicle), fillVehicles nodes t k pos = .ok vs →
      vs.length = k := by
  intro k
  induction k with
  | zero => intro pos vs h; simp only [fillVehicles, Except.ok.injEq] at h; simp [← h]
  | succ k ih =>
    intro pos vs h
    simp only [fillVehicles] at h
    split at h
    · exact absurd h (by simp)
    · split at h
      · exact absurd h (by simp)
      · next rest hrest =>
        simp only [Except.ok.injEq] at h
        subst h
        simp [ih _ _ hrest]

theorem generate_vehicles_length (nodes : List ℕ) (nV : ℕ) (t : Tape) (pos : ℕ)
    (vs : List Vehicle) (h : generate_vehicles nodes nV t pos = .ok vs) : vs.length = nV := by
  simp only [generate_vehicles] at h
  split at h
  · exact absurd h (by simp)
  · have hlen := fillVehicles_length nodes t _ pos vs h
    rw [List.length_zip, List.length_range', List.length_range] at hlen
    omega

/-- Claim C1: when `generate_demand` returns, every row of the produced
requests table satisfies `dist < dist_threshold`, with
`dist = skim[origin][destination]` for that row; this holds for every `nP`
and every `dist_threshold` (in particular whenever the candidate set is
non-empty), assuming the rejection loop terminates — i.e. for every run that
returns at all. -/
theorem C1_distance_invariant (inD : InData) (p : Params) (avg_speed : Bool) (orc : Oracles)
    (t : Tape) (fuel : ℕ) (out : DemandOut)
    (h : generate_demand inD p avg_speed orc t fuel = .ok out) :
    ∀ r ∈ out.requests,
      r.dist < p.dist_threshold ∧ r.dist = inD.skim r.origin r.destination := by
  obtain ⟨pos0, qs, origins, dests, rowsF, posF, _, _, _, _, hloop, hout⟩ :=
    generate_demand_parts _ _ _ _ _ _ _ h
  subst hout
  intro r hr
  obtain ⟨pre, hpre, ho, hd, hdist, _, _⟩ := mem_finalize _ _ _ _ _ hr
  have hinv := (rejectionLoop_ok _ _ _ _ _ _ _ _ _ hloop (zipWith_coherent _ _ _)).1 pre hpre
  exact ⟨hdist ▸ hinv.1, by rw [hdist, ho, hd]; exact hinv.2⟩

theorem C1_distance_invariant_witness :
    demoReq.dist < demoParams.dist_threshold ∧
      demoReq.dist = demoInD.skim demoReq.origin demoReq.destination :=
  C1_distance_invariant demoInD demoParams false demoOrc demoTape 1 demoOut
    (by with_unfolding_all rfl) demoReq (by decide)

/-- Claim C2: whenever `generate_demand` returns, the passenger table and the
request table each have exactly `nP` rows, and whenever `generate_vehicles`
returns, the vehicle table has exactly `nV` rows. -/
theorem C2_cardinality :
    (∀ (nodes : List ℕ) (nV : ℕ) (t : Tape) (pos : ℕ) (vs : List Vehicle),
      generate_vehicles nodes nV t pos = .ok vs → vs.length = nV) ∧
    (∀ (inD : InData) (p : Params) (avg_speed : Bool) (orc : Oracles) (t : Tape) (fuel : ℕ)
      (out : DemandOut), generate_demand inD p avg_speed orc t fuel = .ok out →
      out.passengers.length = p.nP ∧ out.requests.length = p.nP) := by
  refine ⟨generate_vehicles_length, ?_⟩
  intro inD p avg orc t fuel out h
  obtain ⟨pos0, qs, origins, dests, rowsF, posF, hpos0, hqs, horig, hdest, hloop, hout⟩ :=
    generate_demand_parts _ _ _ _ _ _ _ h
  have hrowsF : rowsF.length = p.nP := by
    have hlen := (rejectionLoop_ok _ _ _ _ _ _ _ _ _ hloop (zipWith_coherent _ _ _)).2
    rw [hlen, List.length_zipWith, sampleWeightedN_length _ _ _ _ _ _ horig,
      sampleWeightedN_length _ _ _ _ _ _ hdest]
    omega
  have hreq :
      (finalizeRequests avg p.speeds_ride (qs.map (fun q => p.t0 + pyInt q)) rowsF).length =
        p.nP := by
    rw [finalizeRequests_length, List.length_map, temporalSample_length _ _ _ _ _ hqs, hrowsF]
    omega
  subst hout
  exact ⟨by simpa using hreq, hreq⟩

theorem C2_cardinality_witness :
    demoVehs.length = 2 ∧ demoOut.passengers.length = 1 ∧ demoOut.requests.length = 1 :=
  ⟨C2_cardinality.1 [0, 1] 2 demoTape 0 demoVehs (by with_unfolding_all rfl),
   C2_cardinality.2 demoInD demoParams false demoOrc demoTape 1 demoOut
     (by with_unfolding_all rfl)⟩

/-- Claim C3: in each iteration of the rejection-resampling loop, a row whose
current `dist` is strictly below the threshold keeps its origin and its
destination; only rows with `dist >= dist_threshold` get an origin newly drawn
with the `p_origin` weights and a destination newly drawn with the
`p_destination` weights; afterwards `dist` is the recomputed skim lookup of
the (possibly new) origin/destination pair. -/
theorem C3_resampling_frame (cs : List CandRow) (skim : ℕ → ℕ → ℚ) (thr : ℚ) (t : Tape)
    (rows : List PreReq) (pos : ℕ) (rows2 : List PreReq) (pos2 : ℕ)
    (h : loopIteration cs skim thr t rows pos = .ok (rows2, pos2)) :
    rows2.length = rows.length ∧
    ∀ i, i < rows.length →
      ((rows.getD i dfltPre).dist < thr →
        (rows2.getD i dfltPre).origin = (rows.getD i dfltPre).origin ∧
        (rows2.getD i dfltPre).destination = (rows.getD i dfltPre).destination) ∧
      ((rows2.getD i dfltPre).dist =
        skim (rows2.getD i dfltPre).origin (rows2.getD i dfltPre).destination) ∧
      (thr ≤ (rows.getD i dfltPre).dist →
        (∃ j nds, sampleWeightedN cs CandRow.p_origin 1 t j = .ok nds ∧
          (rows2.getD i dfltPre).origin = nds.headD 0) ∧
        (∃ j nds, sampleWeightedN cs CandRow.p_destination 1 t j = .ok nds ∧
          (rows2.getD i dfltPre).destination = nds.headD 0)) := by
  obtain ⟨rowsA, posA, rowsB, posB, hA, hB, hrec, _⟩ := loopIteration_parts _ _ _ _ _ _ _ _ h
  obtain ⟨hlenA, hspecA⟩ := redrawPass_spec _ _ _ _ _ _ _ _ _ hA
  obtain ⟨hlenB, hspecB⟩ := redrawPass_spec _ _ _ _ _ _ _ _ _ hB
  have hlen2 : rows2.length = rows.length := by
    rw [hrec, recomputeDist_length, hlenB, hlenA]
  refine ⟨hlen2, fun i hi => ?_⟩
  have hiA : i < rowsA.length := by rw [hlenA]; exact hi
  have hiB : i < rowsB.length := by rw [hlenB]; exact hiA
  have hget2 : rows2.getD i dfltPre =
      { rowsB.getD i dfltPre with
        dist := skim (rowsB.getD i dfltPre).origin (rowsB.getD i dfltPre).destination } := by
    rw [hrec]; exact recomputeDist_getD _ _ _ hiB
  by_cases hcase : thr ≤ (rows.getD i dfltPre).dist
  · obtain ⟨j1, nds1, hs1, he1⟩ := (hspecA i hi).2 hcase
    have hAdist : (rowsA.getD i dfltPre).dist = (rows.getD i dfltPre).dist := by
      rw [he1]; rfl
    have hAorigin : (rowsA.getD i dfltPre).origin = nds1.headD 0 := by rw [he1]; rfl
    have hcaseA : thr ≤ (rowsA.getD i dfltPre).dist := by rw [hAdist]; exact hcase
    obtain ⟨j2, nds2, hs2, he2⟩ := (hspecB i hiA).2 hcaseA
    have hBorigin : (rowsB.getD i dfltPre).origin = nds1.headD 0 := by
      rw [he2]; simpa using hAorigin
    have hBdest : (rowsB.getD i dfltPre).destination = nds2.headD 0 := by rw [he2]; rfl
    refine ⟨fun hlt => absurd hcase (not_le.mpr hlt), by rw [hget2], fun _ => ?_⟩
    exact ⟨⟨j1, nds1, hs1, by rw [hget2]; exact hBorigin⟩,
           ⟨j2, nds2, hs2, by rw [hget2]; exact hBdest⟩⟩
  · have he1 := (hspecA i hi).1 hcase
    have hcaseA : ¬ thr ≤ (rowsA.getD i dfltPre).dist := by rw [he1]; exact hcase
    have he2 := (hspecB i hiA).1 hcaseA
    refine ⟨fun _ => ?_, by rw [hget2], fun hyes => absurd hyes hcase⟩
    rw [hget2, he2, he1]
    exact ⟨rfl, rfl⟩

theorem C3_resampling_frame_witness :
    (c3Rows2.getD 0 dfltPre).origin = (c3Rows.getD 0 dfltPre).origin ∧
      (c3Rows2.getD 0 dfltPre).destination = (c3Rows.getD 0 dfltPre).destination :=
  ((C3_resampling_frame c3Cands demoSkim 3 demoTape c3Rows 0 c3Rows2 2
      (by with_unfolding_all rfl)).2 0 (by decide)).1 (by decide)

/-- Claim C4 (as stated) fails on the code: with `avg_speed`, line 183 floors
`dist` to whole seconds first, and line 186 then divides that already-floored
value by `speeds.ride` and floors again.  At `dist = 7/2`, `ride = 1/2` the
produced `ttrav` is `⌊⌊7/2⌋ / (1/2)⌋ = 6`, while the claim's formula
`⌊dist / ride⌋` gives `7`. -/
theorem C4_ttrav_counterexample :
    generate_demand c4InD c4Params true demoOrc c4Tape 1 = .ok c4Out ∧
    (c4Out.requests.getD 0 dfltReq).ttrav = 6 ∧
    ttravClaimed c4Params.speeds_ride ((c4Out.requests.getD 0 dfltReq).dist) = 7 ∧
    (6 : ℤ) ≠ 7 :=
  ⟨by with_unfolding_all rfl, by decide, by with_unfolding_all rfl, by decide⟩

/-- Claim C4, amended: when `avg_speed` is requested, every request's `ttrav`
equals `dist` first floored to whole seconds, then divided by the
average-speed factor, then floored again; when `avg_speed` is not requested,
`ttrav` equals `dist` floored directly to whole seconds. -/
theorem C4_ttrav_floor_order (inD : InData) (p : Params) (avg_speed : Bool) (orc : Oracles)
    (t : Tape) (fuel : ℕ) (out : DemandOut)
    (h : generate_demand inD p avg_speed orc t fuel = .ok out) :
    ∀ r ∈ out.requests,
      r.ttrav = if avg_speed then ⌊((⌊r.dist⌋ : ℚ)) / p.speeds_ride⌋ else ⌊r.dist⌋ := by
  obtain ⟨pos0, qs, origins, dests, rowsF, posF, _, _, _, _, _, hout⟩ :=
    generate_demand_parts _ _ _ _ _ _ _ h
  subst hout
  intro r hr
  obtain ⟨pre, _, _, _, _, httrav, _⟩ := mem_finalize _ _ _ _ _ hr
  simpa [ttravOf] using httrav

theorem C4_ttrav_floor_order_witness :
    c4Req.ttrav = if true then ⌊((⌊c4Req.dist⌋ : ℚ)) / c4Params.speeds_ride⌋ else ⌊c4Req.dist⌋ :=
  C4_ttrav_floor_order c4InD c4Params true demoOrc c4Tape 1 c4Out
    (by with_unfolding_all rfl) c4Req (List.mem_singleton_self c4Req)

/-- `networkstats` reads the pandas column of the skim at the center, so its
radius is the 75th percentile of the lookups `skim n center` over the nodes
`n`. -/
theorem networkstats_radius_def (nodes : List NodeRec) (skim : ℕ → ℕ → ℚ)
    (nearest : ℚ → ℚ → ℕ) :
    (networkstats nodes skim nearest).radius =
      pandasQuantile (3 / 4)
        (nodes.map (fun nd => skim nd.id ((networkstats nodes skim nearest).center))) := rfl

/-- Claim C5 (as stated) fails on the code: `networkstats` extracts the pandas
column `skim[center]`, whose entries are the lookups `skim[node][center]`
(destination = center), not `skim[center][node]` (origin = center).  On an
asymmetric two-node skim with `skim 0 1 = 10`, `skim 1 0 = 20` and center `0`,
the code's radius is `15` (75th percentile of `[0, 20]`), while the claim's
origin-at-center formula gives `15/2` (75th percentile of `[0, 10]`). -/
theorem C5_radius_counterexample :
    (networkstats nsNodes nsSkim nsNearest).radius = 15 ∧
    radiusClaimed nsNodes nsSkim ((networkstats nsNodes nsSkim nsNearest).center) = 15 / 2 ∧
    (15 : ℚ) ≠ 15 / 2 :=
  ⟨by with_unfolding_all rfl, by with_unfolding_all rfl, by with_unfolding_all decide⟩

/-- Claim C5, amended: the radius returned by `networkstats` is the 75th
percentile, over all nodes, of the lookups `skim[node][center]` — the skim
entries with the center as the destination; it agrees with the claim's
`skim[center][node]` form exactly when those entries are symmetric, the matrix
not being assumed symmetric in general. -/
theorem C5_radius_to_center (nodes : List NodeRec) (skim : ℕ → ℕ → ℚ) (nearest : ℚ → ℚ → ℕ)
    (hsym : ∀ nd ∈ nodes, skim nd.id ((networkstats nodes skim nearest).center) =
      skim ((networkstats nodes skim nearest).center) nd.id) :
    (networkstats nodes skim nearest).radius =
      radiusClaimed nodes skim ((networkstats nodes skim nearest).center) := by
  rw [networkstats_radius_def]
  exact congrArg (pandasQuantile (3 / 4)) (List.map_congr_left hsym)

theorem C5_radius_to_center_witness :
    (networkstats nsNodes nsSymSkim nsNearest).radius =
      radiusClaimed nsNodes nsSymSkim ((networkstats nsNodes nsSymSkim nsNearest).center) :=
  C5_radius_to_center nsNodes nsSymSkim nsNearest (by with_unfolding_all decide)

/-- Claim C6: the requests table returned by `generate_demand` is sorted by
non-decreasing `treq`: for every pair of consecutive rows, the earlier row's
`treq` is at most the later row's. -/
theorem C6_sorted_by_treq (inD : InData) (p : Params) (avg_speed : Bool) (orc : Oracles)
    (t : Tape) (fuel : ℕ) (out : DemandOut)
    (h : generate_demand inD p avg_speed orc t fuel = .ok out) :
    ∀ i, i + 1 < out.requests.length →
      (out.requests.getD i dfltReq).treq ≤ (out.requests.getD (i + 1) dfltReq).treq := by
  obtain ⟨pos0, qs, origins, dests, rowsF, posF, _, _, _, _, _, hout⟩ :=
    generate_demand_parts _ _ _ _ _ _ _ h
  subst hout
  exact finalizeRequests_sorted _ _ _ _

theorem C6_sorted_by_treq_witness :
    (demo2Out.requests.getD 0 dfltReq).treq ≤ (demo2Out.requests.getD 1 dfltReq).treq :=
  C6_sorted_by_treq demoInD demo2Params false demoOrc demoTape 1 demo2Out
    (by with_unfolding_all rfl) 0 (by decide)

/-- Claim C7: for every row of the finalized requests table,
`tarr = treq + ttrav` exactly. -/
theorem C7_arrival_consistency (inD : InData) (p : Params) (avg_speed : Bool) (orc : Oracles)
    (t : Tape) (fuel : ℕ) (out : DemandOut)
    (h : generate_demand inD p avg_speed orc t fuel = .ok out) :
    ∀ r ∈ out.requests, r.tarr = r.treq + r.ttrav := by
  obtain ⟨pos0, qs, origins, dests, rowsF, posF, _, _, _, _, _, hout⟩ :=
    generate_demand_parts _ _ _ _ _ _ _ h
  subst hout
  intro r hr
  obtain ⟨pre, _, _, _, _, _, htarr⟩ := mem_finalize _ _ _ _ _ hr
  exact htarr

theorem C7_arrival_consistency_witness : demoReq.tarr = demoReq.treq + demoReq.ttrav :=
  C7_arrival_consistency demoInD demoParams false demoOrc demoTape 1 demoOut
    (by with_unfolding_all rfl) demoReq (by decide)

/-- Claim C8: with a temporal-distribution name that is neither `uniform` nor
`normal`, `generate_demand` never returns a populated result: the `treq`
assignment iterates `None` and the run aborts with an exception, so no table
with a filled (or any) `treq` column is produced. -/
theorem C8_unknown_temporal_fatal (inD : InData) (p : Params) (avg_speed : Bool) (orc : Oracles)
    (t : Tape) (fuel : ℕ) (h1 : p.temporal_distribution ≠ "uniform")
    (h2 : p.temporal_distribution ≠ "normal") :
    ∃ e, generate_demand inD p avg_speed orc t fuel = .exn e := by
  have ht : temporalSample p orc t p.nP = none := by
    simp [temporalSample, h1, h2]
  cases hs : sampleNoReplace t inD.nodes p.nP 0 with
  | error e => exact ⟨e, by simp [generate_demand, hs]⟩
  | ok pos0 =>
    exact ⟨.typeError ("NoneType object is not iterable"), by simp [generate_demand, hs, ht]⟩

theorem C8_unknown_temporal_fatal_witness :
    ∃ e, generate_demand demoInD c8Params false demoOrc demoTape 1 = .exn e :=
  C8_unknown_temporal_fatal demoInD c8Params false demoOrc demoTape 1 (by decide) (by decide)

/-- Claim C9 (as stated) fails on the code: with an empty candidate set the
run does abort, but `generate_demand` contains no configuration check — the
exception is the sampling primitive's generic invalid-weights `ValueError`
raised inside `distances.sample`, not a descriptive configuration error (no
error of the spec's ConfigurationError class exists anywhere in the code). -/
theorem C9_empty_candidates_counterexample :
    generate_demand demoInD c9Params false demoOrc demoTape 1 =
      .exn (.valueError ("Invalid weights: weights sum to zero")) ∧
    (PyError.valueError ("Invalid weights: weights sum to zero")).isConfigELike = false :=
  ⟨by with_unfolding_all rfl, by decide⟩

/-- Claim C9, amended: if `dist_threshold` is at most every node-to-center
skim entry (so the candidate set is empty), `generate_demand` with a
recognized temporal distribution fails fatally — it raises the weighted
sampler's `ValueError` about a zero weight sum rather than returning an empty
or partial result; the error is the sampling library's generic one, not a
descriptive configuration failure. -/
theorem C9_empty_candidates_error (inD : InData) (p : Params) (avg_speed : Bool) (orc : Oracles)
    (t : Tape) (fuel : ℕ)
    (hshape : p.temporal_distribution = "uniform" ∨ p.temporal_distribution = "normal")
    (hnp : p.nP ≤ inD.nodes.length)
    (hempty : ∀ n ∈ inD.nodes, p.dist_threshold ≤ inD.skim n inD.center) :
    generate_demand inD p avg_speed orc t fuel =
      .exn (.valueError ("Invalid weights: weights sum to zero")) := by
  have hcand : buildCandidates inD.skim inD.nodes inD.center p.dist_threshold orc.expA
      p.origins_dispertion p.destinations_dispertion = [] := by
    unfold buildCandidates
    rw [List.filter_eq_nil_iff.mpr, List.map_nil]
    intro a ha
    simp [not_lt.mpr (hempty a ha)]
  have hsnr : sampleNoReplace t inD.nodes p.nP 0 = .ok (sampleGo t p.nP inD.nodes 0) := by
    simp [sampleNoReplace, hnp]
  obtain ⟨qs, hqs⟩ : ∃ qs, temporalSample p orc t p.nP = some qs := by
    cases hq : temporalSample p orc t p.nP with
    | some qs => exact ⟨qs, rfl⟩
    | none =>
      exfalso
      simp only [temporalSample] at hq
      split at hq
      · exact absurd hq (by simp)
      · split at hq
        · exact absurd hq (by simp)
        · next hn1 hn2 =>
          rcases hshape with h | h
          · exact hn1 h
          · exact hn2 h
  have hsw : sampleWeightedN ([] : List CandRow) CandRow.p_origin p.nP t (2 * p.nP) =
      .error (.valueError ("Invalid weights: weights sum to zero")) := by
    simp [sampleWeightedN]
  simp [generate_demand, hsnr, hqs, hcand, hsw]

theorem C9_empty_candidates_error_witness :
    generate_demand demoInD c9Params false demoOrc demoTape 1 =
      .exn (.valueError ("Invalid weights: weights sum to zero")) :=
  C9_empty_candidates_error demoInD c9Params false demoOrc demoTape 1 (Or.inl rfl)
    (by decide) (by with_unfolding_all decide)

/-- Claim C10: `generate_demand` draws the initial passenger positions without
replacement from the node set, so (for a duplicate-free node index) the `nP`
initial positions are pairwise distinct, and the call fails with pandas'
larger-sample-than-population error whenever `nP` exceeds the number of
nodes. -/
theorem C10_sample_without_replacement :
    (∀ (inD : InData) (p : Params) (avg_speed : Bool) (orc : Oracles) (t : Tape) (fuel : ℕ)
      (out : DemandOut), inD.nodes.Nodup →
      generate_demand inD p avg_speed orc t fuel = .ok out → out.pos0.Nodup) ∧
    (∀ (inD : InData) (p : Params) (avg_speed : Bool) (orc : Oracles) (t : Tape) (fuel : ℕ),
      inD.nodes.length < p.nP →
      generate_demand inD p avg_speed orc t fuel =
        .exn (.valueError
          ("Cannot take a larger sample than population when replace is False"))) := by
  constructor
  · intro inD p avg orc t fuel out hnd h
    obtain ⟨pos0, qs, origins, dests, rowsF, posF, hpos0, _, _, _, _, hout⟩ :=
      generate_demand_parts _ _ _ _ _ _ _ h
    subst hout
    show pos0.Nodup
    simp only [sampleNoReplace] at hpos0
    split at hpos0
    · next hle =>
      simp only [Except.ok.injEq] at hpos0
      subst hpos0
      exact sampleGo_nodup t _ _ _ hle hnd
    · exact absurd hpos0 (by simp)
  · intro inD p avg orc t fuel hlt
    have hsnr : sampleNoReplace t inD.nodes p.nP 0 =
        .error (.valueError
          ("Cannot take a larger sample than population when replace is False")) := by
      simp [sampleNoReplace, Nat.not_le.mpr hlt]
    simp [generate_demand, hsnr]

theorem C10_sample_without_replacement_witness :
    demoOut.pos0.Nodup ∧
    generate_demand demoInD c10Params false demoOrc demoTape 1 =
      .exn (.valueError ("Cannot take a larger sample than population when replace is False")) :=
  ⟨C10_sample_without_replacement.1 demoInD demoParams false demoOrc demoTape 1 demoOut
      (by decide) (by with_unfolding_all rfl),
   C10_sample_without_replacement.2 demoInD c10Params false demoOrc demoTape 1 (by decide)⟩

end MaaSSim
